import Mathlib

/-!
Verification of the schemdraw coordinate-transform and segment engine
(`schemdraw/transform.py`, `schemdraw/segments.py`).

Geometry is embedded over `ℝ` (Python floats are modelled as exact reals).
The `Point` helpers (`add`, `mul`, `rotate`, `mirrorx`, `flip`) and
`linspace` live in `schemdraw/util.py`, which is not part of the sources
under verification; they are modelled from the specification (§4.1: add,
scalar-multiply, standard 2D rotation about the origin in degrees,
mirror-about-vertical-line negates the x-offset from the axis, flip negates
y; §4.3: dense even sampling across a sweep).
-/

/-- Modelled from the spec: `util.Point`, a pair of real coordinates. -/
structure Point where
  x : ℝ
  y : ℝ

/-- Modelled from the spec: componentwise point addition. -/
def Point.add (p q : Point) : Point :=
  ⟨p.x + q.x, p.y + q.y⟩

/-- Modelled from the spec: scalar multiplication of a point. -/
def Point.mul (p : Point) (z : ℝ) : Point :=
  ⟨p.x * z, p.y * z⟩

/-- Degrees to radians, as `math.radians`. -/
noncomputable def radians (d : ℝ) : ℝ := d * Real.pi / 180

/-- Modelled from the spec: standard 2D rotation about the origin by an
angle given in degrees. -/
noncomputable def Point.rotate (p : Point) (deg : ℝ) : Point :=
  ⟨p.x * Real.cos (radians deg) - p.y * Real.sin (radians deg),
   p.x * Real.sin (radians deg) + p.y * Real.cos (radians deg)⟩

/-- Modelled from the spec: `util.mirrorx` reflects a point about the
vertical line `x = centerx` (negates the x-offset from the axis). -/
def mirrorx (p : Point) (centerx : ℝ) : Point :=
  ⟨2 * centerx - p.x, p.y⟩

/-- Modelled from the spec: `util.flip` negates the y coordinate. -/
def Point.flip (p : Point) : Point :=
  ⟨p.x, -p.y⟩

/-- Modelled from the spec: `util.linspace`, `num` evenly spaced samples
from `a` to `b`, both endpoints included. -/
noncomputable def linspace (a b : ℝ) (num : ℕ) : List ℝ :=
  (List.range num).map (fun i : ℕ => a + (b - a) * i / ((num : ℝ) - 1))

/-- The transformation / flip reference tag: Python `None`, `'start'` or
`'end'` (the documented domain of the `ref` argument). -/
inductive Ref where
  | rnone
  | rstart
  | rend
deriving DecidableEq

/-- `Transform` from `transform.py`: rotation angle `theta` in degrees,
global shift, local (pre-)shift and zoom, exactly the four attributes
stored by `Transform.__init__`. -/
structure Transform where
  theta : ℝ
  shift : Point
  localshift : Point
  zoom : ℝ

/-- `Transform.__init__(theta, globalshift, localshift=(0,0), zoom=1)`:
stores the four parameters unchanged.  The source performs no validation
of any parameter (in particular none on `zoom`). -/
def Transform.init (theta : ℝ) (globalshift localshift : Point) (zoom : ℝ) : Transform :=
  ⟨theta, globalshift, localshift, zoom⟩

/-- The local-shift lookup in `Transform.transform`:
`{'start': Point((0,0)), 'end': self.localshift*2}.get(ref, self.localshift)`. -/
def Transform.lshift (t : Transform) (ref : Ref) : Point :=
  match ref with
  | .rstart => ⟨0, 0⟩
  | .rend => t.localshift.mul 2
  | .rnone => t.localshift

/-- `Transform.transform(pt, ref)`:
`((Point(pt) + lshift) * self.zoom).rotate(self.theta) + self.shift`. -/
noncomputable def Transform.transform (t : Transform) (pt : Point) (ref : Ref) : Point :=
  (((pt.add (t.lshift ref)).mul t.zoom).rotate t.theta).add t.shift

/-- `Transform.transform_array(pts)`: maps `transform` with the default
reference (`ref=None`) over the list, preserving order. -/
noncomputable def Transform.transform_array (t : Transform) (pts : List Point) : List Point :=
  pts.map (fun p => t.transform p .rnone)

/-- C1: for every point `p` and every `Transform`, `transform(p, ref)`
returns `((p + lshift) * zoom)` rotated by `theta` degrees then translated
by the global shift, where `lshift` is the zero point when `ref = 'start'`,
twice the local shift when `ref = 'end'`, and the local shift for any other
reference (including the default `None`). -/
theorem transform_order_and_ref_semantics (t : Transform) (p : Point) :
    t.transform p .rstart = (((p.add ⟨0, 0⟩).mul t.zoom).rotate t.theta).add t.shift
    ∧ t.transform p .rend =
        (((p.add (t.localshift.mul 2)).mul t.zoom).rotate t.theta).add t.shift
    ∧ t.transform p .rnone =
        (((p.add t.localshift).mul t.zoom).rotate t.theta).add t.shift := by
  exact ⟨rfl, rfl, rfl⟩

/-- A Python fill value as accepted by the segment classes: the booleans
`True`/`False` or a color string.  (`None` is represented by `Option`.) -/
inductive Fill where
  | ftrue
  | ffalse
  | fcolor (s : String)
deriving DecidableEq

/-- Python truthiness of an optional string: `None` and `''` are falsy. -/
def truthyS : Option String → Bool
  | none => false
  | some s => s != ""

/-- Python truthiness of an optional number: `None` and `0` are falsy. -/
def truthyQ : Option ℚ → Bool
  | none => false
  | some q => decide (q ≠ 0)

/-- Python truthiness of an optional fill value: `None`, `False` and the
empty string are falsy. -/
def truthyF : Option Fill → Bool
  | none => false
  | some .ftrue => true
  | some .ffalse => false
  | some (.fcolor s) => s != ""

/-- The `**style` keyword dictionary passed to `xform` and `draw`.  An
outer `none` means the key is absent from the dictionary; `some v` means
the key is present and maps to the Python value `v` (itself possibly
`None`).  Fields are the style keywords documented on the segment
classes. -/
structure Style where
  zorder : Option (Option Int)
  color : Option (Option String)
  fill : Option (Option Fill)
  lw : Option (Option ℚ)
  ls : Option (Option String)
  capstyle : Option (Option String)
  joinstyle : Option (Option String)
  headwidth : Option (Option ℚ)
  headlength : Option (Option ℚ)

/-- The empty style dictionary (no keys present). -/
def Style.empty : Style :=
  ⟨none, none, none, none, none, none, none, none, none⟩

/-- Python `style.get(key, default)`: the stored value when the key is
present, the default otherwise. -/
def oget (f : Option (Option α)) (d : Option α) : Option α :=
  f.getD d

/-- `Segment` from `segments.py`: a path plus the optional style
attributes stored by `Segment.__init__` (each `kwargs.get(key, None)`). -/
structure Segment where
  path : List Point
  zorder : Option Int
  color : Option String
  fill : Option Fill
  lw : Option ℚ
  ls : Option String
  capstyle : Option String
  joinstyle : Option String

/-- `Segment.xform(transform, **style)`: builds `params` from the
segment's own attributes, then `params.update(style)` (keys present in
`style` replace the segment's values), and constructs a new `Segment`
with the transformed path. -/
noncomputable def Segment.xform (s : Segment) (t : Transform) (st : Style) : Segment :=
  ⟨t.transform_array s.path,
   oget st.zorder s.zorder,
   oget st.color s.color,
   oget st.fill s.fill,
   oget st.lw s.lw,
   oget st.ls s.ls,
   oget st.capstyle s.capstyle,
   oget st.joinstyle s.joinstyle⟩

/-- `Segment.doreverse(centerx)`: mirror every path point about
`x = centerx` and reverse the point order. -/
def Segment.doreverse (s : Segment) (centerx : ℝ) : Segment :=
  ⟨s.path.reverse.map (fun p => mirrorx p centerx),
   s.zorder, s.color, s.fill, s.lw, s.ls, s.capstyle, s.joinstyle⟩

/-- `Segment.doflip()`: vertically flip every path point. -/
def Segment.doflip (s : Segment) : Segment :=
  ⟨s.path.map Point.flip,
   s.zorder, s.color, s.fill, s.lw, s.ls, s.capstyle, s.joinstyle⟩

/-- `self.zorder if self.zorder is not None else style.get('zorder', 2)`. -/
def resolveZorder (s : Segment) (st : Style) : Option Int :=
  if s.zorder.isSome then s.zorder else oget st.zorder (some 2)

/-- `self.color if self.color else style.get('color', 'black')`. -/
def resolveColor (s : Segment) (st : Style) : Option String :=
  if truthyS s.color then s.color else oget st.color (some "black")

/-- `self.fill if self.fill is not None else style.get('fill', None)`. -/
def resolveFill (s : Segment) (st : Style) : Option Fill :=
  if s.fill.isSome then s.fill else oget st.fill none

/-- `self.ls if self.ls else style.get('ls', '-')`. -/
def resolveLs (s : Segment) (st : Style) : Option String :=
  if truthyS s.ls then s.ls else oget st.ls (some "-")

/-- `self.lw if self.lw else style.get('lw', 2)`. -/
def resolveLw (s : Segment) (st : Style) : Option ℚ :=
  if truthyQ s.lw then s.lw else oget st.lw (some 2)

/-- `self.capstyle if self.capstyle else style.get('capstyle', 'round')`. -/
def resolveCapstyle (s : Segment) (st : Style) : Option String :=
  if truthyS s.capstyle then s.capstyle else oget st.capstyle (some "round")

/-- `self.joinstyle if self.joinstyle else style.get('joinstyle', 'round')`. -/
def resolveJoinstyle (s : Segment) (st : Style) : Option String :=
  if truthyS s.joinstyle then s.joinstyle else oget st.joinstyle (some "round")

/-- The duplicate test in `Segment.draw`:
`len(tlist) != len(set(tlist))`, i.e. the transformed path contains a
repeated coordinate. -/
def hasDup (l : List Point) : Prop := ¬ l.Nodup

open Classical in
/-- The fill adjustment in `Segment.draw`: when the resolved fill is
truthy, it is suppressed to `None` unless the transformed path has a
repeated point, and a bare `True` borrows the resolved stroke color. -/
noncomputable def segFinalFill (s : Segment) (st : Style) (tpath : List Point) : Option Fill :=
  if truthyF (resolveFill s st) then
    if ¬ hasDup tpath then none
    else if resolveFill s st = some .ftrue then (resolveColor s st).map Fill.fcolor
    else resolveFill s st
  else resolveFill s st

/-- The arguments of the `fig.plot(...)` call emitted by `Segment.draw`. -/
structure PlotCall where
  x : List ℝ
  y : List ℝ
  color : Option String
  fill : Option Fill
  ls : Option String
  lw : Option ℚ
  capstyle : Option String
  joinstyle : Option String
  zorder : Option Int

/-- `Segment.draw(fig, transform, **style)`: transforms the path, resolves
every style attribute, applies the fill suppression, and emits one
`fig.plot` call. -/
noncomputable def Segment.draw (s : Segment) (t : Transform) (st : Style) : PlotCall :=
  let path := t.transform_array s.path
  ⟨path.map Point.x,
   path.map Point.y,
   resolveColor s st,
   segFinalFill s st path,
   resolveLs s st,
   resolveLw s st,
   resolveCapstyle s st,
   resolveJoinstyle s st,
   resolveZorder s st⟩

/-- `SegmentText` from `segments.py`: a label position plus the attributes
stored by `SegmentText.__init__`. -/
structure SegmentText where
  xy : Point
  text : String
  align : Option (String × String)
  font : Option String
  fontsize : ℚ
  color : Option String
  rotation : Option ℚ
  rotation_mode : Option String
  zorder : Option Int

/-- `SegmentText.doreverse(centerx)`: mirror the anchor position. -/
def SegmentText.doreverse (s : SegmentText) (centerx : ℝ) : SegmentText :=
  ⟨mirrorx s.xy centerx, s.text, s.align, s.font, s.fontsize, s.color,
   s.rotation, s.rotation_mode, s.zorder⟩

/-- `SegmentText.doflip()`: vertically flip the anchor position. -/
def SegmentText.doflip (s : SegmentText) : SegmentText :=
  ⟨s.xy.flip, s.text, s.align, s.font, s.fontsize, s.color,
   s.rotation, s.rotation_mode, s.zorder⟩

/-- `SegmentPoly` from `segments.py`: polygon vertices plus the attributes
stored by `SegmentPoly.__init__`. -/
structure SegmentPoly where
  verts : List Point
  closed : Option Bool
  cornerradius : ℚ
  color : Option String
  fill : Option Fill
  joinstyle : Option String
  capstyle : Option String
  zorder : Option Int
  lw : Option ℚ
  ls : Option String

/-- `SegmentPoly.doreverse(centerx)`: mirror every vertex about
`x = centerx` and reverse the vertex order. -/
def SegmentPoly.doreverse (s : SegmentPoly) (centerx : ℝ) : SegmentPoly :=
  ⟨s.verts.reverse.map (fun p => mirrorx p centerx),
   s.closed, s.cornerradius, s.color, s.fill, s.joinstyle, s.capstyle,
   s.zorder, s.lw, s.ls⟩

/-- `SegmentPoly.doflip()`: vertically flip every vertex. -/
def SegmentPoly.doflip (s : SegmentPoly) : SegmentPoly :=
  ⟨s.verts.map Point.flip,
   s.closed, s.cornerradius, s.color, s.fill, s.joinstyle, s.capstyle,
   s.zorder, s.lw, s.ls⟩

/-- The endpoint-reference swap used by `doreverse` on circles and arrows:
`{None: None, 'start': 'end', 'end': 'start'}.get(self.endref)`. -/
def swapRef : Ref → Ref
  | .rnone => .rnone
  | .rstart => .rend
  | .rend => .rstart

/-- `SegmentCircle` from `segments.py`: center, radius and the attributes
stored by `SegmentCircle.__init__` (`endref` is `kwargs.get('ref', None)`). -/
structure SegmentCircle where
  center : Point
  radius : ℝ
  zorder : Option Int
  color : Option String
  fill : Option Fill
  lw : Option ℚ
  ls : Option String
  endref : Ref

/-- `SegmentCircle.doreverse(centerx)`: mirror the center and swap the
start/end reference tag. -/
def SegmentCircle.doreverse (s : SegmentCircle) (centerx : ℝ) : SegmentCircle :=
  ⟨mirrorx s.center centerx, s.radius, s.zorder, s.color, s.fill,
   s.lw, s.ls, swapRef s.endref⟩

/-- `SegmentCircle.doflip()`: vertically flip the center (the reference
tag is unchanged). -/
def SegmentCircle.doflip (s : SegmentCircle) : SegmentCircle :=
  ⟨s.center.flip, s.radius, s.zorder, s.color, s.fill, s.lw, s.ls, s.endref⟩

/-- `SegmentCircle.xform(transform, **style)`: transforms the center using
the endpoint reference and passes the radius through UNCHANGED (the zoom
factor is not applied to the radius here); `params.update(style)` lets
keys present in `style` replace the stored style attributes. -/
noncomputable def SegmentCircle.xform (s : SegmentCircle) (t : Transform) (st : Style) :
    SegmentCircle :=
  ⟨t.transform s.center s.endref,
   s.radius,
   oget st.zorder s.zorder,
   oget st.color s.color,
   oget st.fill s.fill,
   oget st.lw s.lw,
   oget st.ls s.ls,
   s.endref⟩

/-- The arguments of the `fig.circle(...)` call emitted by
`SegmentCircle.draw`. -/
structure CircleCall where
  center : Point
  radius : ℝ
  color : Option String
  fill : Option Fill
  lw : Option ℚ
  ls : Option String
  zorder : Option Int

/-- `SegmentCircle.draw(fig, transform, **style)`: transforms the center,
multiplies the radius by the transform's zoom, resolves the style
attributes and emits one `fig.circle` call. -/
noncomputable def SegmentCircle.draw (s : SegmentCircle) (t : Transform) (st : Style) :
    CircleCall :=
  let color := if truthyS s.color then s.color else oget st.color (some "black")
  let fill0 := if s.fill.isSome then s.fill else oget st.fill none
  let fill := if fill0 = some Fill.ftrue then color.map Fill.fcolor
              else if fill0 = some Fill.ffalse then none
              else fill0
  ⟨t.transform s.center s.endref,
   t.zoom * s.radius,
   color,
   fill,
   (if truthyQ s.lw then s.lw else oget st.lw (some 2)),
   (if truthyS s.ls then s.ls else oget st.ls (some "-")),
   (if s.zorder.isSome then s.zorder else oget st.zorder (some 1))⟩

/-- `SegmentArrow` from `segments.py`: tail, head and the attributes
stored by `SegmentArrow.__init__`.  The constructor performs no check of
any kind on the geometry (a zero-length arrow is accepted). -/
structure SegmentArrow where
  tail : Point
  head : Point
  zorder : Option Int
  headwidth : Option ℚ
  headlength : Option ℚ
  color : Option String
  lw : Option ℚ
  endref : Ref

/-- `SegmentArrow.__init__(tail, head, **kwargs)`: stores the endpoints
unchanged; there is no degenerate-geometry validation in the source. -/
def SegmentArrow.init (tail head : Point) (zorder : Option Int)
    (headwidth headlength : Option ℚ) (color : Option String) (lw : Option ℚ)
    (endref : Ref) : SegmentArrow :=
  ⟨tail, head, zorder, headwidth, headlength, color, lw, endref⟩

/-- `SegmentArrow.doreverse(centerx)`: mirror both endpoints and swap the
start/end reference tag. -/
def SegmentArrow.doreverse (s : SegmentArrow) (centerx : ℝ) : SegmentArrow :=
  ⟨mirrorx s.tail centerx, mirrorx s.head centerx, s.zorder, s.headwidth,
   s.headlength, s.color, s.lw, swapRef s.endref⟩

/-- `SegmentArrow.doflip()`: vertically flip both endpoints. -/
def SegmentArrow.doflip (s : SegmentArrow) : SegmentArrow :=
  ⟨s.tail.flip, s.head.flip, s.zorder, s.headwidth, s.headlength,
   s.color, s.lw, s.endref⟩

/-- The arguments of the `fig.arrow(x, y, dx, dy, ...)` call emitted by
`SegmentArrow.draw`. -/
structure ArrowCall where
  x : ℝ
  y : ℝ
  dx : ℝ
  dy : ℝ
  headwidth : Option ℚ
  headlength : Option ℚ
  color : Option String
  lw : Option ℚ
  zorder : Option Int

/-- `SegmentArrow.draw(fig, transform, **style)`: transforms both
endpoints with the stored reference, resolves the style attributes and
emits one `fig.arrow` call; a zero-length arrow is emitted with
`dx = dy = 0`, no error is raised. -/
noncomputable def SegmentArrow.draw (s : SegmentArrow) (t : Transform) (st : Style) :
    ArrowCall :=
  let tail := t.transform s.tail s.endref
  let head := t.transform s.head s.endref
  ⟨tail.x, tail.y, head.x - tail.x, head.y - tail.y,
   (if truthyQ s.headwidth then s.headwidth else oget st.headwidth (some (2/10))),
   (if truthyQ s.headlength then s.headlength else oget st.headlength (some (2/10))),
   (if truthyS s.color then s.color else oget st.color (some "black")),
   (if truthyQ s.lw then s.lw else oget st.lw (some 2)),
   (if s.zorder.isSome then s.zorder else oget st.zorder (some 1))⟩

/-- Direction tag of an arc arrowhead: `'cw'` or `'ccw'`. -/
inductive ArrowDir where
  | cw
  | ccw
deriving DecidableEq

/-- The arrow-direction swap in `SegmentArc.doreverse`/`doflip`:
`{'cw': 'ccw', 'ccw': 'cw'}.get(self.arrow, None)`. -/
def swapArrowDir : Option ArrowDir → Option ArrowDir
  | some .cw => some .ccw
  | some .ccw => some .cw
  | none => none

/-- `SegmentArc` from `segments.py`: ellipse parameters and the attributes
stored by `SegmentArc.__init__` (`arrow` is `kwargs.get('arrow', None)`). -/
structure SegmentArc where
  center : Point
  width : ℝ
  height : ℝ
  theta1 : ℝ
  theta2 : ℝ
  arrow : Option ArrowDir
  angle : ℝ
  color : Option String
  lw : Option ℚ
  ls : Option String
  zorder : Option Int

/-- `SegmentArc.doreverse(centerx)`: mirror the center, replace
`(theta1, theta2)` by `(180 - theta2, 180 - theta1)` and swap the
`cw`/`ccw` arrow tag. -/
def SegmentArc.doreverse (s : SegmentArc) (centerx : ℝ) : SegmentArc :=
  ⟨mirrorx s.center centerx, s.width, s.height,
   180 - s.theta2, 180 - s.theta1, swapArrowDir s.arrow,
   s.angle, s.color, s.lw, s.ls, s.zorder⟩

/-- `SegmentArc.doflip()`: vertically flip the center, replace
`(theta1, theta2)` by `(-theta2, -theta1)` and swap the `cw`/`ccw`
arrow tag. -/
def SegmentArc.doflip (s : SegmentArc) : SegmentArc :=
  ⟨s.center.flip, s.width, s.height,
   -s.theta2, -s.theta1, swapArrowDir s.arrow,
   s.angle, s.color, s.lw, s.ls, s.zorder⟩

/-- `SegmentArc.xform(transform, **style)`: transforms the center with the
default reference, scales width and height by the zoom, adds the
transform's rotation to the ellipse angle and keeps `theta1`/`theta2`;
`params` holds only `color`/`lw`/`ls`/`zorder` (updated by `style`), so
the constructed arc's `arrow` falls back to the constructor default
`None` — the original arrow tag is not propagated. -/
noncomputable def SegmentArc.xform (s : SegmentArc) (t : Transform) (st : Style) :
    SegmentArc :=
  ⟨t.transform s.center .rnone,
   s.width * t.zoom,
   s.height * t.zoom,
   s.theta1,
   s.theta2,
   none,
   s.angle + t.theta,
   oget st.color s.color,
   oget st.lw s.lw,
   oget st.ls s.ls,
   oget st.zorder s.zorder⟩

/-- Python `min` over a list of floats (the bounding-box code only applies
it to nonempty sample lists; the empty case is given a dummy value). -/
def listMin : List ℝ → ℝ
  | [] => 0
  | x :: xs => xs.foldl min x

/-- Python `max` over a list of floats. -/
def listMax : List ℝ → ℝ
  | [] => 0
  | x :: xs => xs.foldl max x

lemma foldl_min_le_init (xs : List ℝ) (a : ℝ) : xs.foldl min a ≤ a := by
  induction xs generalizing a with
  | nil => simp
  | cons y ys ih => exact le_trans (ih (min a y)) (min_le_left a y)

lemma foldl_min_le_mem (xs : List ℝ) (a x : ℝ) (hx : x ∈ xs) : xs.foldl min a ≤ x := by
  induction xs generalizing a with
  | nil => cases hx
  | cons y ys ih =>
    rcases List.mem_cons.mp hx with h | h
    · subst h
      exact le_trans (foldl_min_le_init ys (min a x)) (min_le_right a x)
    · exact ih (min a y) h

lemma le_foldl_min (xs : List ℝ) (a b : ℝ) (ha : b ≤ a) (h : ∀ x ∈ xs, b ≤ x) :
    b ≤ xs.foldl min a := by
  induction xs generalizing a with
  | nil => simpa using ha
  | cons y ys ih =>
    exact ih (min a y) (le_min ha (h y (by simp))) (fun x hx => h x (by simp [hx]))

lemma init_le_foldl_max (xs : List ℝ) (a : ℝ) : a ≤ xs.foldl max a := by
  induction xs generalizing a with
  | nil => simp
  | cons y ys ih => exact le_trans (le_max_left a y) (ih (max a y))

lemma mem_le_foldl_max (xs : List ℝ) (a x : ℝ) (hx : x ∈ xs) : x ≤ xs.foldl max a := by
  induction xs generalizing a with
  | nil => cases hx
  | cons y ys ih =>
    rcases List.mem_cons.mp hx with h | h
    · subst h
      exact le_trans (le_max_right a x) (init_le_foldl_max ys (max a x))
    · exact ih (max a y) h

lemma foldl_max_le (xs : List ℝ) (a b : ℝ) (ha : a ≤ b) (h : ∀ x ∈ xs, x ≤ b) :
    xs.foldl max a ≤ b := by
  induction xs generalizing a with
  | nil => simpa using ha
  | cons y ys ih =>
    exact ih (max a y) (max_le ha (h y (by simp))) (fun x hx => h x (by simp [hx]))

lemma listMin_le_mem {l : List ℝ} {x : ℝ} (hx : x ∈ l) : listMin l ≤ x := by
  cases l with
  | nil => cases hx
  | cons y ys =>
    rcases List.mem_cons.mp hx with h | h
    · subst h
      exact foldl_min_le_init ys x
    · exact foldl_min_le_mem ys y x h

lemma le_listMin {l : List ℝ} {b : ℝ} (hne : l ≠ []) (h : ∀ x ∈ l, b ≤ x) :
    b ≤ listMin l := by
  cases l with
  | nil => exact absurd rfl hne
  | cons y ys =>
    exact le_foldl_min ys y b (h y (by simp)) (fun x hx => h x (by simp [hx]))

lemma listMin_eq {l : List ℝ} {b : ℝ} (hmem : b ∈ l) (h : ∀ x ∈ l, b ≤ x) :
    listMin l = b :=
  le_antisymm (listMin_le_mem hmem) (le_listMin (List.ne_nil_of_mem hmem) h)

lemma mem_le_listMax {l : List ℝ} {x : ℝ} (hx : x ∈ l) : x ≤ listMax l := by
  cases l with
  | nil => cases hx
  | cons y ys =>
    rcases List.mem_cons.mp hx with h | h
    · subst h
      exact init_le_foldl_max ys x
    · exact mem_le_foldl_max ys y x h

lemma listMax_le {l : List ℝ} {b : ℝ} (hne : l ≠ []) (h : ∀ x ∈ l, x ≤ b) :
    listMax l ≤ b := by
  cases l with
  | nil => exact absurd rfl hne
  | cons y ys =>
    exact foldl_max_le ys y b (h y (by simp)) (fun x hx => h x (by simp [hx]))

lemma listMax_eq {l : List ℝ} {b : ℝ} (hmem : b ∈ l) (h : ∀ x ∈ l, x ≤ b) :
    listMax l = b :=
  le_antisymm (listMax_le (List.ne_nil_of_mem hmem) h) (mem_le_listMax hmem)

/-- `math.atan2(y, x)`: the argument of the complex number `x + i y`. -/
noncomputable def atan2 (y x : ℝ) : ℝ := Complex.arg ⟨x, y⟩

lemma atan2_zero_of_pos {c : ℝ} (h : 0 ≤ c) : atan2 0 c = 0 := by
  have hc : (⟨c, 0⟩ : ℂ) = (c : ℂ) := by
    apply Complex.ext <;> simp
  rw [atan2, hc]
  exact Complex.arg_ofReal_of_nonneg h

lemma atan2_pi_of_neg {c : ℝ} (h : c < 0) : atan2 0 c = Real.pi := by
  have hc : (⟨c, 0⟩ : ℂ) = (c : ℂ) := by
    apply Complex.ext <;> simp
  rw [atan2, hc]
  exact Complex.arg_ofReal_of_neg h

/-- `BBox` namedtuple: `(xmin, ymin, xmax, ymax)`. -/
structure BBox where
  xmin : ℝ
  ymin : ℝ
  xmax : ℝ
  ymax : ℝ

/-- The start parameter `t1` in `SegmentArc.get_bbox`:
`atan2(width*sin(theta1), height*cos(theta1))` with `theta1` in radians. -/
noncomputable def SegmentArc.bboxT1 (a : SegmentArc) : ℝ :=
  atan2 (a.width * Real.sin (radians a.theta1)) (a.height * Real.cos (radians a.theta1))

/-- The raw end parameter `t2` in `SegmentArc.get_bbox`. -/
noncomputable def SegmentArc.bboxT2 (a : SegmentArc) : ℝ :=
  atan2 (a.width * Real.sin (radians a.theta2)) (a.height * Real.cos (radians a.theta2))

/-- The `while t2 < t1: t2 += 2*pi` normalization in `SegmentArc.get_bbox`;
since `atan2` ranges over `(-pi, pi]` the loop body runs at most once, so
it is a single conditional addition. -/
noncomputable def SegmentArc.bboxT2n (a : SegmentArc) : ℝ :=
  if a.bboxT2 < a.bboxT1 then a.bboxT2 + 2 * Real.pi else a.bboxT2

/-- The parameter samples `t = util.linspace(t1, t2, num=500)`. -/
noncomputable def SegmentArc.bboxTs (a : SegmentArc) : List ℝ :=
  linspace a.bboxT1 a.bboxT2n 500

/-- The sampled x coordinates in `SegmentArc.get_bbox`:
`center[0] + rx*cos(t)*cos(phi) - ry*sin(t)*sin(phi)` with `rx = width/2`,
`ry = height/2`, `phi = radians(angle)`. -/
noncomputable def SegmentArc.bboxXs (a : SegmentArc) : List ℝ :=
  a.bboxTs.map (fun t =>
    a.center.x + (a.width / 2) * Real.cos t * Real.cos (radians a.angle)
      - (a.height / 2) * Real.sin t * Real.sin (radians a.angle))

/-- The sampled y coordinates in `SegmentArc.get_bbox`:
`center[1] + rx*cos(t)*sin(phi) + ry*sin(t)*cos(phi)`. -/
noncomputable def SegmentArc.bboxYs (a : SegmentArc) : List ℝ :=
  a.bboxTs.map (fun t =>
    a.center.y + (a.width / 2) * Real.cos t * Real.sin (radians a.angle)
      + (a.height / 2) * Real.sin t * Real.cos (radians a.angle))

/-- `SegmentArc.get_bbox()`: min/max of the 500 sampled boundary points. -/
noncomputable def SegmentArc.get_bbox (a : SegmentArc) : BBox :=
  ⟨listMin a.bboxXs, listMin a.bboxYs, listMax a.bboxXs, listMax a.bboxYs⟩

/-- A concrete identity-like transform (`theta=0`, no shifts, `zoom=1`). -/
def idTransform : Transform := Transform.init 0 ⟨0, 0⟩ ⟨0, 0⟩ 1

/-- A segment carrying an explicit color `'red'`. -/
def cexSegment : Segment := ⟨[⟨0, 0⟩], none, some "red", none, none, none, none, none⟩

/-- A caller style dictionary supplying `color='blue'`. -/
def cexStyle : Style :=
  ⟨none, some (some "blue"), none, none, none, none, none, none, none⟩

/-- C2 counterexample: the claim predicts that a primitive's explicit
color takes precedence in `xform`, but `params.update(style)` makes the
caller's style win: a segment with `color='red'` transformed with style
`color='blue'` comes back `'blue'`. -/
theorem xform_style_overrides_primitive_cex :
    cexSegment.color = some "red"
    ∧ (cexSegment.xform idTransform cexStyle).color = some "blue" :=
  ⟨rfl, rfl⟩

/-- C2 amended: in `xform` each attribute of the result is the caller
style's value whenever the key is present in the style, and the
primitive's value only otherwise (the caller's style overrides the
primitive); in `draw` the primitive's value is used when truthy (for
`zorder` and `fill`, when not `None`), otherwise the style's value or the
built-in default. -/
theorem style_resolution_as_implemented (s : Segment) (t : Transform) (st : Style) :
    (s.xform t st).zorder = oget st.zorder s.zorder
    ∧ (s.xform t st).color = oget st.color s.color
    ∧ (s.xform t st).fill = oget st.fill s.fill
    ∧ (s.xform t st).lw = oget st.lw s.lw
    ∧ (s.xform t st).ls = oget st.ls s.ls
    ∧ (s.xform t st).capstyle = oget st.capstyle s.capstyle
    ∧ (s.xform t st).joinstyle = oget st.joinstyle s.joinstyle
    ∧ (s.draw t st).zorder = (if s.zorder.isSome then s.zorder else oget st.zorder (some 2))
    ∧ (s.draw t st).color = (if truthyS s.color then s.color else oget st.color (some "black"))
    ∧ resolveFill s st = (if s.fill.isSome then s.fill else oget st.fill none)
    ∧ (s.draw t st).ls = (if truthyS s.ls then s.ls else oget st.ls (some "-"))
    ∧ (s.draw t st).lw = (if truthyQ s.lw then s.lw else oget st.lw (some 2))
    ∧ (s.draw t st).capstyle =
        (if truthyS s.capstyle then s.capstyle else oget st.capstyle (some "round"))
    ∧ (s.draw t st).joinstyle =
        (if truthyS s.joinstyle then s.joinstyle else oget st.joinstyle (some "round")) :=
  ⟨rfl, rfl, rfl, rfl, rfl, rfl, rfl, rfl, rfl, rfl, rfl, rfl, rfl, rfl⟩

/-- C3: `SegmentArc.doreverse` replaces `(theta1, theta2)` by
`(180 - theta2, 180 - theta1)` and swaps the `'cw'`/`'ccw'` arrow tag;
`doflip` replaces `(theta1, theta2)` by `(-theta2, -theta1)` and likewise
swaps the tag. -/
theorem arc_doreverse_doflip_theta_arrow (a : SegmentArc) (x0 : ℝ) :
    (a.doreverse x0).theta1 = 180 - a.theta2
    ∧ (a.doreverse x0).theta2 = 180 - a.theta1
    ∧ (a.doreverse x0).arrow =
        (match a.arrow with
         | some .cw => some .ccw
         | some .ccw => some .cw
         | none => none)
    ∧ a.doflip.theta1 = -a.theta2
    ∧ a.doflip.theta2 = -a.theta1
    ∧ a.doflip.arrow =
        (match a.arrow with
         | some .cw => some .ccw
         | some .ccw => some .cw
         | none => none) := by
  obtain ⟨c, w, h, t1, t2, ar, an, co, lw, ls, z⟩ := a
  refine ⟨rfl, rfl, ?_, rfl, rfl, ?_⟩ <;> rcases ar with _ | d <;> rfl

/-- C7 counterexample: `Transform.__init__` performs no validation, so a
zoom of `-1` is accepted and the resulting transform is usable — it maps
`(1, 1)` to `(-1, -1)` (no `InvalidTransform` error exists in the code). -/
theorem transform_negative_zoom_cex :
    (Transform.init 0 ⟨0, 0⟩ ⟨0, 0⟩ (-1)).zoom = -1
    ∧ (-1 : ℝ) ≤ 0
    ∧ (Transform.init 0 ⟨0, 0⟩ ⟨0, 0⟩ (-1)).transform ⟨1, 1⟩ .rnone = ⟨-1, -1⟩ := by
  refine ⟨rfl, by norm_num, ?_⟩
  simp [Transform.init, Transform.transform, Transform.lshift, Point.add, Point.mul,
    Point.rotate, radians, Point.mk.injEq]

/-- C7 amended: constructing a `Transform` never fails for any zoom value
(including values `≤ 0`): the constructor stores all four parameters
unchanged and the resulting transform applies the stored zoom as given. -/
theorem transform_init_no_validation (theta : ℝ) (g l : Point) (z : ℝ) (p : Point) (r : Ref) :
    (Transform.init theta g l z).zoom = z
    ∧ (Transform.init theta g l z).theta = theta
    ∧ (Transform.init theta g l z).shift = g
    ∧ (Transform.init theta g l z).localshift = l
    ∧ (Transform.init theta g l z).transform p r =
        (((p.add ((Transform.init theta g l z).lshift r)).mul z).rotate theta).add g :=
  ⟨rfl, rfl, rfl, rfl, rfl⟩

/-- A zero-length arrow: tail and head coincide at the origin. -/
def zeroArrow : SegmentArrow :=
  SegmentArrow.init ⟨0, 0⟩ ⟨0, 0⟩ none none none none none .rnone

/-- C8 counterexample: an arrow whose tail and head coincide is accepted
by the constructor and silently rendered (the emitted `fig.arrow` call has
`dx = dy = 0`); no `DegenerateGeometry` error exists in the code. -/
theorem zero_length_arrow_cex :
    zeroArrow.tail = zeroArrow.head
    ∧ (zeroArrow.draw idTransform Style.empty).dx = 0
    ∧ (zeroArrow.draw idTransform Style.empty).dy = 0 :=
  ⟨rfl, sub_self _, sub_self _⟩

/-- C8 amended: for every coincident tail/head pair, construction of the
arrow succeeds unchanged and `draw` emits a `fig.arrow` call with zero
extent (`dx = dy = 0`) instead of failing. -/
theorem zero_length_arrow_draws (p : Point) (z : Option Int) (hw hl : Option ℚ)
    (c : Option String) (lw : Option ℚ) (r : Ref) (t : Transform) (st : Style) :
    (SegmentArrow.init p p z hw hl c lw r).tail = (SegmentArrow.init p p z hw hl c lw r).head
    ∧ ((SegmentArrow.init p p z hw hl c lw r).draw t st).dx = 0
    ∧ ((SegmentArrow.init p p z hw hl c lw r).draw t st).dy = 0 :=
  ⟨rfl, sub_self _, sub_self _⟩

/-- C9: `SegmentCircle.xform` passes the radius through unchanged for
every transform (the zoom is not applied there), while `draw` multiplies
the radius by the transform's zoom in the emitted `fig.circle` call. -/
theorem circle_xform_radius_unchanged (s : SegmentCircle) (t : Transform) (st : Style) :
    (s.xform t st).radius = s.radius
    ∧ (s.draw t st).radius = t.zoom * s.radius :=
  ⟨rfl, rfl⟩

/-- C10: `SegmentArc.xform` never propagates the arrow-direction tag: the
transformed arc's `arrow` is `None` regardless of the original's value
(`arrow` is not among the constructor parameters passed by `xform`). -/
theorem arc_xform_drops_arrow (a : SegmentArc) (t : Transform) (st : Style) :
    (a.xform t st).arrow = none :=
  rfl

lemma mirrorx_mirrorx (p : Point) (x0 : ℝ) : mirrorx (mirrorx p x0) x0 = p := by
  cases p with
  | mk px py => simp [mirrorx, Point.mk.injEq]

lemma mirrorx_comp (x0 : ℝ) :
    ((fun p => mirrorx p x0) ∘ (fun p => mirrorx p x0)) = id :=
  funext fun p => mirrorx_mirrorx p x0

lemma swapRef_swapRef (r : Ref) : swapRef (swapRef r) = r := by
  cases r <;> rfl

lemma swapArrowDir_swapArrowDir (o : Option ArrowDir) :
    swapArrowDir (swapArrowDir o) = o := by
  cases o with
  | none => rfl
  | some d => cases d <;> rfl

/-- C4: for every primitive of each of the six variants and every axis,
applying `doreverse` (mirror about the vertical line at `x0`) twice
restores the primitive exactly: coordinates, point order, theta angles,
the `cw`/`ccw` arrow tag and the start/end reference tag. -/
theorem doreverse_involutive_all_variants (x0 : ℝ) (s : Segment) (tx : SegmentText)
    (po : SegmentPoly) (ci : SegmentCircle) (ar : SegmentArrow) (a : SegmentArc) :
    (s.doreverse x0).doreverse x0 = s
    ∧ (tx.doreverse x0).doreverse x0 = tx
    ∧ (po.doreverse x0).doreverse x0 = po
    ∧ (ci.doreverse x0).doreverse x0 = ci
    ∧ (ar.doreverse x0).doreverse x0 = ar
    ∧ (a.doreverse x0).doreverse x0 = a := by
  refine ⟨?_, ?_, ?_, ?_, ?_, ?_⟩
  · cases s
    simp [Segment.doreverse, mirrorx_comp]
  · cases tx
    simp [SegmentText.doreverse, mirrorx_mirrorx]
  · cases po
    simp [SegmentPoly.doreverse, mirrorx_comp]
  · cases ci
    simp [SegmentCircle.doreverse, mirrorx_mirrorx, swapRef_swapRef]
  · cases ar
    simp [SegmentArrow.doreverse, mirrorx_mirrorx, swapRef_swapRef]
  · cases a
    simp [SegmentArc.doreverse, mirrorx_mirrorx, swapArrowDir_swapArrowDir]

lemma truthyF_map_fcolor (c : Option String) : truthyF (c.map Fill.fcolor) = truthyS c := by
  cases c <;> rfl

/-- A line segment with a closed path (the first point repeats at the end)
and `fill=True` requested. -/
def fillSeg : Segment :=
  ⟨[⟨0, 0⟩, ⟨1, 0⟩, ⟨1, 1⟩, ⟨0, 0⟩], none, none, some Fill.ftrue, none, none, none, none⟩

/-- A caller style whose `color` key is present but maps to `None`. -/
def noneColorStyle : Style :=
  ⟨none, some none, none, none, none, none, none, none, none⟩

/-- C5 counterexample: a closed path (`(0,0)` repeats) with `fill=True`
requested is NOT rendered filled when the resolved stroke color is `None`
(`fill=True` borrows the stroke color, and the borrowed color can be
`None`), contradicting the claimed "fill iff a repeated coordinate". -/
theorem fill_requested_not_drawn_cex :
    truthyF (resolveFill fillSeg noneColorStyle) = true
    ∧ hasDup (idTransform.transform_array fillSeg.path)
    ∧ (fillSeg.draw idTransform noneColorStyle).fill = none := by
  refine ⟨rfl, ?_, ?_⟩
  · show ¬ (idTransform.transform_array fillSeg.path).Nodup
    have e : idTransform.transform_array fillSeg.path =
        [idTransform.transform ⟨0, 0⟩ .rnone, idTransform.transform ⟨1, 0⟩ .rnone,
         idTransform.transform ⟨1, 1⟩ .rnone, idTransform.transform ⟨0, 0⟩ .rnone] := rfl
    rw [e]
    intro h
    exact (List.nodup_cons.mp h).1 (by simp)
  · show segFinalFill fillSeg noneColorStyle (idTransform.transform_array fillSeg.path) = none
    simp [segFinalFill, resolveFill, resolveColor, oget, truthyS, truthyF, fillSeg, noneColorStyle]

/-- C5 amended: whenever a fill is requested (the resolved fill value is
truthy), `draw` emits a truthy fill to the surface if and only if the
transformed point sequence contains a repeated coordinate AND, in the case
`fill=True` (which borrows the stroke color), the resolved stroke color is
itself truthy; the stroke is emitted in every case (the plot call carries
the full transformed path and the resolved color). -/
theorem fill_suppression_amended (s : Segment) (t : Transform) (st : Style)
    (hreq : truthyF (resolveFill s st) = true) :
    (truthyF (s.draw t st).fill = true ↔
      (hasDup (t.transform_array s.path)
        ∧ (resolveFill s st = some Fill.ftrue → truthyS (resolveColor s st) = true)))
    ∧ (s.draw t st).x = (t.transform_array s.path).map Point.x
    ∧ (s.draw t st).color = resolveColor s st := by
  refine ⟨?_, rfl, rfl⟩
  show truthyF (segFinalFill s st (t.transform_array s.path)) = true ↔ _
  unfold segFinalFill
  rw [if_pos hreq]
  by_cases hd : hasDup (t.transform_array s.path)
  · rw [if_neg (not_not_intro hd)]
    by_cases hf : resolveFill s st = some Fill.ftrue
    · rw [if_pos hf, truthyF_map_fcolor]
      exact ⟨fun h => ⟨hd, fun _ => h⟩, fun h => h.2 hf⟩
    · rw [if_neg hf]
      exact ⟨fun _ => ⟨hd, fun hc => absurd hc hf⟩, fun _ => hreq⟩
  · rw [if_pos hd]
    simp [truthyF, hd]

/-- A line segment with an explicit fill color and a degenerate repeated
path, used to instantiate the amended fill theorem. -/
def wSeg : Segment :=
  ⟨[⟨0, 0⟩, ⟨0, 0⟩], none, none, some (Fill.fcolor "red"), none, none, none, none⟩

/-- Witness for the amended fill theorem at a concrete closed path with
`fill='red'` and an empty caller style. -/
theorem fill_suppression_amended_witness :
    truthyF (resolveFill wSeg Style.empty) = true
    ∧ ((truthyF (wSeg.draw idTransform Style.empty).fill = true ↔
        (hasDup (idTransform.transform_array wSeg.path)
          ∧ (resolveFill wSeg Style.empty = some Fill.ftrue →
              truthyS (resolveColor wSeg Style.empty) = true)))
      ∧ (wSeg.draw idTransform Style.empty).x =
          (idTransform.transform_array wSeg.path).map Point.x
      ∧ (wSeg.draw idTransform Style.empty).color = resolveColor wSeg Style.empty) :=
  ⟨rfl, fill_suppression_amended wSeg idTransform Style.empty rfl⟩

/-- The half-circle arc of the claim: center `(0,0)`, width 2, height 2,
`theta1=0`, `theta2=180`, no ellipse rotation. -/
def halfArc : SegmentArc :=
  ⟨⟨0, 0⟩, 2, 2, 0, 180, none, 0, none, none, none, none⟩

lemma radians_zero : radians 0 = 0 := by
  simp [radians]

lemma radians_180 : radians 180 = Real.pi := by
  unfold radians
  field_simp

lemma halfArc_t1 : halfArc.bboxT1 = 0 := by
  show atan2 (2 * Real.sin (radians 0)) (2 * Real.cos (radians 0)) = 0
  have h1 : (2 : ℝ) * Real.sin (radians 0) = 0 := by
    rw [radians_zero, Real.sin_zero]; ring
  have h2 : (2 : ℝ) * Real.cos (radians 0) = 2 := by
    rw [radians_zero, Real.cos_zero]; ring
  rw [h1, h2]
  exact atan2_zero_of_pos (by norm_num)

lemma halfArc_t2 : halfArc.bboxT2 = Real.pi := by
  show atan2 (2 * Real.sin (radians 180)) (2 * Real.cos (radians 180)) = Real.pi
  have h1 : (2 : ℝ) * Real.sin (radians 180) = 0 := by
    rw [radians_180, Real.sin_pi]; ring
  have h2 : (2 : ℝ) * Real.cos (radians 180) = -2 := by
    rw [radians_180, Real.cos_pi]; ring
  rw [h1, h2]
  exact atan2_pi_of_neg (by norm_num)

lemma halfArc_t2n : halfArc.bboxT2n = Real.pi := by
  unfold SegmentArc.bboxT2n
  rw [halfArc_t1, halfArc_t2]
  exact if_neg (not_lt.mpr Real.pi_nonneg)

lemma halfArc_ts :
    halfArc.bboxTs = (List.range 500).map (fun i : ℕ => Real.pi * i / 499) := by
  unfold SegmentArc.bboxTs
  rw [halfArc_t1, halfArc_t2n]
  unfold linspace
  refine List.map_congr_left ?_
  intro i _
  norm_num

lemma halfArc_xs :
    halfArc.bboxXs = (List.range 500).map (fun i : ℕ => Real.cos (Real.pi * i / 499)) := by
  unfold SegmentArc.bboxXs
  rw [halfArc_ts, List.map_map]
  congr 1
  funext i
  simp only [Function.comp]
  show (0 : ℝ) + 2 / 2 * Real.cos (Real.pi * i / 499) * Real.cos (radians 0)
      - 2 / 2 * Real.sin (Real.pi * i / 499) * Real.sin (radians 0)
      = Real.cos (Real.pi * i / 499)
  rw [radians_zero, Real.cos_zero, Real.sin_zero]
  ring

lemma halfArc_ys :
    halfArc.bboxYs = (List.range 500).map (fun i : ℕ => Real.sin (Real.pi * i / 499)) := by
  unfold SegmentArc.bboxYs
  rw [halfArc_ts, List.map_map]
  congr 1
  funext i
  simp only [Function.comp]
  show (0 : ℝ) + 2 / 2 * Real.cos (Real.pi * i / 499) * Real.sin (radians 0)
      + 2 / 2 * Real.sin (Real.pi * i / 499) * Real.cos (radians 0)
      = Real.sin (Real.pi * i / 499)
  rw [radians_zero, Real.cos_zero, Real.sin_zero]
  ring

set_option maxRecDepth 8000 in
/-- C6: for the arc with center `(0,0)`, width 2, height 2, `theta1=0`,
`theta2=180`, `get_bbox` samples the parametric boundary with exactly 500
samples over a sweep normalized so the end parameter is not below the
start parameter, and returns a bounding box approximately `(-1, 0, 1, 1)`:
the first three coordinates exactly, and `ymax` within `1/100` of `1`. -/
theorem arc_halfcircle_bbox :
    halfArc.get_bbox.xmin = -1
    ∧ halfArc.get_bbox.ymin = 0
    ∧ halfArc.get_bbox.xmax = 1
    ∧ |halfArc.get_bbox.ymax - 1| ≤ 1 / 100
    ∧ halfArc.bboxTs.length = 500
    ∧ halfArc.bboxT1 ≤ halfArc.bboxT2n := by
  have hxmin : listMin halfArc.bboxXs = -1 := by
    rw [halfArc_xs]
    apply listMin_eq
    · refine List.mem_map.mpr ⟨499, by simp, ?_⟩
      have h499 : (Real.pi * (499 : ℕ) / 499 : ℝ) = Real.pi := by
        push_cast
        field_simp
      rw [h499, Real.cos_pi]
    · rintro x hx
      obtain ⟨i, hi, rfl⟩ := List.mem_map.mp hx
      exact Real.neg_one_le_cos _
  have hymin : listMin halfArc.bboxYs = 0 := by
    rw [halfArc_ys]
    apply listMin_eq
    · refine List.mem_map.mpr ⟨0, by simp, ?_⟩
      norm_num [Real.sin_zero]
    · rintro x hx
      obtain ⟨i, hi, rfl⟩ := List.mem_map.mp hx
      apply Real.sin_nonneg_of_nonneg_of_le_pi
      · exact div_nonneg (mul_nonneg Real.pi_nonneg (Nat.cast_nonneg i)) (by norm_num)
      · have hi' : (i : ℝ) ≤ 499 := by
          exact_mod_cast Nat.lt_succ_iff.mp (List.mem_range.mp hi)
        rw [div_le_iff₀ (by norm_num : (0 : ℝ) < 499)]
        nlinarith [Real.pi_nonneg, hi']
  have hxmax : listMax halfArc.bboxXs = 1 := by
    rw [halfArc_xs]
    apply listMax_eq
    · refine List.mem_map.mpr ⟨0, by simp, ?_⟩
      norm_num [Real.cos_zero]
    · rintro x hx
      obtain ⟨i, hi, rfl⟩ := List.mem_map.mp hx
      exact Real.cos_le_one _
  have hymax_le : listMax halfArc.bboxYs ≤ 1 := by
    rw [halfArc_ys]
    apply listMax_le (List.ne_nil_of_mem (List.mem_map.mpr ⟨0, by simp, rfl⟩))
    rintro x hx
    obtain ⟨i, hi, rfl⟩ := List.mem_map.mp hx
    exact Real.sin_le_one _
  have hsin250 : (99 : ℝ) / 100 ≤ Real.sin (Real.pi * (250 : ℕ) / 499) := by
    have h250 : (Real.pi * ((250 : ℕ) : ℝ) / 499) = Real.pi / 998 + Real.pi / 2 := by
      push_cast
      ring
    rw [h250, Real.sin_add_pi_div_two]
    have hb := Real.one_sub_sq_div_two_le_cos (x := Real.pi / 998)
    nlinarith [hb, Real.pi_lt_d2, Real.pi_pos]
  have hymax_ge : (99 : ℝ) / 100 ≤ listMax halfArc.bboxYs := by
    rw [halfArc_ys]
    exact le_trans hsin250 (mem_le_listMax (List.mem_map.mpr ⟨250, by simp, rfl⟩))
  have hlen : halfArc.bboxTs.length = 500 := by
    rw [halfArc_ts, List.length_map, List.length_range]
  have ht1t2 : halfArc.bboxT1 ≤ halfArc.bboxT2n := by
    rw [halfArc_t1, halfArc_t2n]
    exact Real.pi_nonneg
  refine ⟨hxmin, hymin, hxmax, ?_, hlen, ht1t2⟩
  rw [abs_le]
  constructor
  · have := hymax_ge
    show -(1 / 100 : ℝ) ≤ listMax halfArc.bboxYs - 1
    linarith
  · have := hymax_le
    show listMax halfArc.bboxYs - 1 ≤ (1 / 100 : ℝ)
    linarith
